import Mathlib

/-!
Shallow embedding of the `stringreader` tag-driven decode engine
(`unmarshal.go`, `context.go`, `source.go`, `errors.go`).

The embedding follows the newer variant of the source (the one using
`TypeTag` / `getUnmarshaler` / `ErrFailedToProcessField`), which is the
variant the claims reference.

Go's reflection layer is modelled by a small closed universe of types
(`Ty`) and values (`Value`): strings, 64-bit-style integers (modelled as
unbounded `Int`, with wrap-around applied explicitly at conversions),
`uint16`, `[]string`, pointers, and structs.  A Go `interface{}` value is
an optional `(Ty, Value)` pair (`none` models the nil interface, i.e. an
invalid `reflect.Value`).  Struct tags (`reflect.StructTag`) are modelled
as association lists of key/value pairs; `Tag.Get` returns the first
match or the empty string, as the Go tag parser does for conventional
tags (which never contain an empty key).
-/

namespace Stringreader

/-- `reflect.StructTag`, modelled as the key/value pairs the Go tag
parser would extract. -/
abbrev Tag := List (String × String)

/-- `reflect.StructTag.Get`: the value for `key`, or `""` when absent. -/
def tagGet (t : Tag) (key : String) : String :=
  match t.find? (fun p => p.1 == key) with
  | some p => p.2
  | none => ""

/-- `Kind` from `context.go`: which kind of (un)marshaling function is
being used. -/
inductive Kind where
  | undef
  | singleUnmarshaler
  | multiUnmarshaler
  | singleMarshaler
  | multiMarshaler
deriving DecidableEq, Repr

/-- `Kind.Single` from `context.go`. -/
def Kind.Single : Kind → Bool
  | .singleUnmarshaler => true
  | .singleMarshaler => true
  | _ => false

/-- `Kind.Multi` from `context.go`. -/
def Kind.Multi : Kind → Bool
  | .multiUnmarshaler => true
  | .multiMarshaler => true
  | _ => false

mutual
/-- The fragment of Go types the engine manipulates through `reflect`. -/
inductive Ty where
  | str : Ty
  | int : Ty
  | uint16 : Ty
  | sliceStr : Ty
  | ptr : Ty → Ty
  | structT : Fields → Ty

/-- A struct type: the declared fields in order, each with its name,
its struct tag and its declared type. -/
inductive Fields where
  | nil : Fields
  | cons (name : String) (tag : Tag) (ty : Ty) (rest : Fields) : Fields
end

mutual
/-- Runtime values for `Ty`. -/
inductive Value where
  | vStr : String → Value
  | vInt : Int → Value
  | vUint16 : Nat → Value
  | vSliceStr : List String → Value
  | vPtrNull : Value
  | vPtr : Value → Value
  | vStruct : Values → Value

/-- The field values of a struct value, in declaration order. -/
inductive Values where
  | nil : Values
  | cons : Value → Values → Values
end

deriving instance DecidableEq, Repr for Ty, Fields
deriving instance DecidableEq, Repr for Value, Values

/-- A non-nil `interface{}` value: a runtime type and a value. -/
abbrev GoVal := Ty × Value

mutual
/-- The zero value of a type (`reflect.New(t).Elem()`). -/
def zeroValue : Ty → Value
  | .str => .vStr ""
  | .int => .vInt 0
  | .uint16 => .vUint16 0
  | .sliceStr => .vSliceStr []
  | .ptr _ => .vPtrNull
  | .structT fs => .vStruct (zeroFields fs)

/-- Zero values for every declared field of a struct. -/
def zeroFields : Fields → Values
  | .nil => .nil
  | .cons _ _ ty rest => .cons (zeroValue ty) (zeroFields rest)
end

/-- Go assignability restricted to this fragment: with no interface or
named-type subtleties present, a value is assignable exactly to its own
type (`reflect.Type.AssignableTo`). -/
def assignableTo (a b : Ty) : Bool := a == b

/-- Go convertibility (`reflect.Value.CanConvert`) restricted to this
fragment: identity conversions, numeric conversions between `int` and
`uint16`, and the Go integer-to-string (code point) conversion.  A
string is not convertible to a numeric type. -/
def canConvert : Ty → Ty → Bool
  | .str, .str => true
  | .int, .int => true
  | .int, .uint16 => true
  | .int, .str => true
  | .uint16, .uint16 => true
  | .uint16, .int => true
  | .uint16, .str => true
  | .sliceStr, .sliceStr => true
  | .ptr a, .ptr b => a == b
  | .structT a, .structT b => a == b
  | _, _ => false

/-- Go conversion semantics for the convertible pairs of this fragment:
integer conversions truncate modulo the destination width, and
integer-to-string yields the one-character string of the code point. -/
def convertVal : Value → Ty → Value
  | .vInt n, .uint16 => .vUint16 (n % 65536).toNat
  | .vInt n, .str => .vStr (String.mk [Char.ofNat (n.toNat % 1114112)])
  | .vUint16 n, .int => .vInt (Int.ofNat n)
  | .vUint16 n, .str => .vStr (String.mk [Char.ofNat (n % 1114112)])
  | v, _ => v

/-- `reflectConvert` from `unmarshal.go`: performs the conversion and
recovers from any conversion panic, returning it as an error.  The
conversions between the kinds of this fragment never panic, so the
error branch is never taken here. -/
def reflectConvert (v : GoVal) (t : Ty) : Except String GoVal :=
  .ok (t, convertVal v.2 t)

/-- `Data` from `context.go`: the shared global/local scratch store.
The zero value (`Data{}`) has both maps nil, modelled by empty lists. -/
structure Data where
  Globals : List (String × GoVal)
  Locals : List (String × List (String × GoVal))
deriving DecidableEq, Repr

/-- The zero `Data{}`. -/
def Data.empty : Data := ⟨[], []⟩

/-- Go map read in one-result form: the value or `none`, like
`m[k]` with a nil-able value type. -/
def dataLookup {α : Type} (l : List (String × α)) (k : String) : Option α :=
  (l.find? (fun p => p.1 == k)).map (fun p => p.2)

/-- Go map read in two-result form `v, ok := m[k]` for a map whose
values are nil-able functions: returns the stored value (or the zero
value `none` when absent) together with the presence flag. -/
def goMapLookup {α : Type} (m : List (String × Option α)) (k : String) :
    Option α × Bool :=
  match m.find? (fun p => p.1 == k) with
  | some p => (p.2, true)
  | none => (none, false)

/-- Go map write `m[k] = v` (insert or overwrite). -/
def goMapSet {α : Type} (m : List (String × α)) (k : String) (v : α) :
    List (String × α) :=
  match m with
  | [] => [(k, v)]
  | (k', v') :: rest =>
    if k' == k then (k, v) :: rest else (k', v') :: goMapSet rest k v

/-- `Data.SetGlobal` from `context.go`. -/
def Data.SetGlobal (p : Data) (key : String) (value : GoVal) : Data :=
  { p with Globals := goMapSet p.Globals key value }

/-- `Data.SetLocal` from `context.go`. -/
def Data.SetLocal (p : Data) (field key : String) (value : GoVal) : Data :=
  let inner := match dataLookup p.Locals field with
    | some mp => mp
    | none => []
  { p with Locals := goMapSet p.Locals field (goMapSet inner key value) }

/-- The `context` struct from `context.go`: the positional state of the
decode pass plus the shared data store. -/
structure Ctx where
  field : String
  tag : Tag
  datum : String
  typ : String
  kind : Kind
  data : Data
deriving DecidableEq, Repr

/-- `context.Reset` from `context.go`: clears `field`, `datum`, `typ`,
`kind` and `data`.  (The source does not touch `tag`.) -/
def Ctx.Reset (p : Ctx) : Ctx :=
  { p with field := "", datum := "", typ := "", kind := .undef,
           data := Data.empty }

/-- A zero-valued context, as produced by the pool's `New`. -/
def emptyCtx : Ctx := ⟨"", [], "", "", .undef, Data.empty⟩

/-- `context.Field`. -/
def Ctx.Field (p : Ctx) : String := p.field

/-- `context.Datum`. -/
def Ctx.Datum (p : Ctx) : String := p.datum

/-- `context.Typ`. -/
def Ctx.Typ (p : Ctx) : String := p.typ

/-- `context.GetGlobal`. -/
def Ctx.GetGlobal (p : Ctx) (key : String) : Option GoVal :=
  dataLookup p.data.Globals key

/-- `context.Get`. -/
def Ctx.Get (p : Ctx) (key : String) : Option GoVal :=
  match dataLookup p.data.Locals p.field with
  | some mp => dataLookup mp key
  | none => none

/-- `SingleUnmarshaler`: `func(value string, ok bool, ctx Context)
(interface{}, error)`.  The returned pair is the interface value
(`none` = nil interface) and the error (`none` = nil error). -/
abbrev SingleUnmarshaler := String → Bool → Ctx → (Option GoVal × Option String)

/-- `MultiUnmarshaler`: `func(value []string, ok bool, ctx Context)
(interface{}, error)`. -/
abbrev MultiUnmarshaler := List String → Bool → Ctx → (Option GoVal × Option String)

/-- The registry errors from `errors.go` (`ErrUnknownTyp`, `ErrBothTyp`). -/
inductive RegistryError where
  | errUnknownTyp
  | errBothTyp
deriving DecidableEq, Repr

/-- The error taxonomy from `errors.go` (newer variant). -/
inductive MarshalError where
  | errDestIsNil
  | errNotPointerToStruct
  | errInlineNotStruct (field : String) (tag : Tag) (typ : String)
  | errUnknownType (field : String) (tag : Tag) (datum : String)
      (typ : String) (cause : RegistryError)
  | errFailedToProcessField (field : String) (tag : Tag) (datum : String)
      (typ : String) (kind : Kind) (cause : String)
  | errWrongDestType (field : String) (tag : Tag) (datum : String)
      (typ : String) (kind : Kind) (Assignment : Bool)
      (ReturnedType : Ty) (DestType : Ty) (cause : Option String)
deriving DecidableEq, Repr

/-- The outcome of a decode call: success, a returned `MarshalError`, or
a runtime panic escaping from the reflection layer. -/
inductive UOutcome where
  | ok
  | err (e : MarshalError)
  | panicked (msg : String)
deriving DecidableEq, Repr

/-- The `Source` interface: `Lookup` and `LookupAll`. -/
structure Src where
  Lookup : String → String × Bool
  LookupAll : String → List String × Bool

/-- A source with no data at all. -/
def emptySrc : Src := ⟨fun _ => ("", false), fun _ => ([], false)⟩

/-- `SourceSingleMap` (`map[string]string`), as a single-value lookup
function. -/
def sourceSingleMap (m : List (String × String)) : String → String × Bool :=
  fun k =>
    match dataLookup m k with
    | some v => (v, true)
    | none => ("", false)

/-- `SourceMultiMap` (`map[string][]string`), as a multi-value lookup
function. -/
def sourceMultiMap (m : List (String × List String)) :
    String → List String × Bool :=
  fun k =>
    match dataLookup m k with
    | some v => (v, true)
    | none => ([], false)

/-- `SourceSplit` from `source.go`: optional single and multi
components; a nil component simulates an empty source. -/
structure SourceSplit where
  SourceSingle : Option (String → String × Bool)
  SourceMulti : Option (String → List String × Bool)

/-- `SourceSplit.Lookup`. -/
def SourceSplit.Lookup (s : SourceSplit) (value : String) : String × Bool :=
  match s.SourceSingle with
  | none => ("", false)
  | some f => f value

/-- `SourceSplit.LookupAll`. -/
def SourceSplit.LookupAll (s : SourceSplit) (value : String) :
    List String × Bool :=
  match s.SourceMulti with
  | none => ([], false)
  | some f => f value

/-- `SourceSmartSplit` from `source.go`: like `SourceSplit`, but an
unset component is emulated from the other one. -/
structure SourceSmartSplit where
  SourceSingle : Option (String → String × Bool)
  SourceMulti : Option (String → List String × Bool)

/-- `SourceSmartSplit.Lookup`: uses the single component when present,
otherwise the first element of the multi component's list. -/
def SourceSmartSplit.Lookup (s : SourceSmartSplit) (value : String) :
    String × Bool :=
  match s.SourceSingle with
  | some f => f value
  | none =>
    match s.SourceMulti with
    | some g =>
      let r := g value
      -- if !ok || len(result) == 0 { return "", false }
      if r.2 = false ∨ r.1 = [] then ("", false)
      else (r.1.headI, true)
    | none => ("", false)

/-- `SourceSmartSplit.LookupAll`: uses the multi component when present,
otherwise wraps the single component's value in a singleton list.  Note
the source returns `nil, true` when the single lookup reports the key
absent. -/
def SourceSmartSplit.LookupAll (s : SourceSmartSplit) (value : String) :
    List String × Bool :=
  match s.SourceMulti with
  | some g => g value
  | none =>
    match s.SourceSingle with
    | some f =>
      let r := f value
      if r.2 = false then ([], true)
      else ([r.1], true)
    | none => ([], false)

/-- The `Marshal` configuration struct (newer variant of
`unmarshal.go`).  The two registries are Go maps whose values are
nil-able functions. -/
structure Marshal where
  NameTag : String
  StrictNameTag : Bool
  TypeTag : String
  DefaultType : String
  InlineType : String
  SingleUnmarshalers : List (String × Option SingleUnmarshaler)
  MultiUnmarshalers : List (String × Option MultiUnmarshaler)
  StrictTyping : Bool

/-- `Marshal.getUnmarshaler`: looks the name up in both registries,
treats nil entries as missing, and fails when the name is effectively in
both registries or in neither. -/
def Marshal.getUnmarshaler (m : Marshal) (name : String) :
    Except RegistryError (Option SingleUnmarshaler × Option MultiUnmarshaler) :=
  let s := goMapLookup m.SingleUnmarshalers name
  let mu := goMapLookup m.MultiUnmarshalers name
  -- singleOK = singleOK && single != nil; multiOK = multiOK && multi != nil
  let singleOK := s.2 && s.1.isSome
  let multiOK := mu.2 && mu.1.isSome
  if singleOK && multiOK then .error .errBothTyp
  else if !(singleOK || multiOK) then .error .errUnknownTyp
  else .ok (s.1, mu.1)

/-- `Marshal.RegisterSingleUnmarshaler` (the registered function is a
nil-able Go function value). -/
def Marshal.RegisterSingleUnmarshaler (m : Marshal) (name : String)
    (unmarshaler : Option SingleUnmarshaler) : Marshal :=
  { m with SingleUnmarshalers := goMapSet m.SingleUnmarshalers name unmarshaler }

/-- `Marshal.RegisterMultiUnmarshaler`. -/
def Marshal.RegisterMultiUnmarshaler (m : Marshal) (name : String)
    (unmarshaler : Option MultiUnmarshaler) : Marshal :=
  { m with MultiUnmarshalers := goMapSet m.MultiUnmarshalers name unmarshaler }

/-- The result of processing one field of the target struct inside the
field loop of `Marshal.unmarshal`:

* `skip`: the `continue` statements that leave the field untouched
  (no decoder resolved, or strict name tag with no name-tag entry);
* `assigned fv ctx`: the loop continues after `fValue.Set` (or after a
  successful inline recursion) with `fv` the field's new value;
* `halt o fv ctx`: an early `return` (error) or a panic; `fv` is the
  field's value at that point (an inline field may already have been
  partially updated in place). -/
inductive StepResult where
  | skip (ctx : Ctx)
  | assigned (fv : Value) (ctx : Ctx)
  | halt (o : UOutcome) (fv : Value) (ctx : Ctx)

/-- The tail of the field body of `Marshal.unmarshal` after the decoder
invocation: wrap a decoder error as `ErrFailedToProcessField`, otherwise
reconcile the returned value (`pValue`) against the declared field type
and assign it.  `ctx` already carries `field`, `tag`, `datum`, `typ` and
`kind` for the current field. -/
def afterParse (m : Marshal) (ctx : Ctx) (fty : Ty) (fv : Value)
    (pValue : Option GoVal) (pErr : Option String) : StepResult :=
  match pErr with
  | some e =>
    .halt (.err (.errFailedToProcessField ctx.field ctx.tag ctx.datum
      ctx.typ ctx.kind e)) fv ctx
  | none =>
    if m.StrictTyping then
      -- if m.StrictTyping && !rValue.Type().AssignableTo(fType):
      -- calling Type() on the zero reflect.Value panics.
      match pValue with
      | none =>
        .halt (.panicked "reflect: call of reflect.Value.Type on zero Value")
          fv ctx
      | some rv =>
        if assignableTo rv.1 fty then .assigned rv.2 ctx
        else
          .halt (.err (.errWrongDestType ctx.field ctx.tag ctx.datum
            ctx.typ ctx.kind true rv.1 fty none)) fv ctx
    else
      match pValue with
      | some rv =>
        if canConvert rv.1 fty then
          match reflectConvert rv fty with
          | .ok rv' => .assigned rv'.2 ctx
          | .error e =>
            -- unreachable for the conversions of this fragment
            .halt (.err (.errWrongDestType ctx.field ctx.tag ctx.datum
              ctx.typ ctx.kind false rv.1 fty (some e))) fv ctx
        else
          .halt (.err (.errWrongDestType ctx.field ctx.tag ctx.datum
            ctx.typ ctx.kind false rv.1 fty none)) fv ctx
      | none =>
        -- invalid returned value: substitute the zero value of the type
        .assigned (zeroValue fty) ctx

mutual
/-- The field loop of `Marshal.unmarshal`: processes the declared fields
against the current field values, threading the pooled context.  A
`halt` step stops the loop at once, leaving the remaining fields with
their prior values. -/
def unmarshalFields (m : Marshal) (source : Src) (data : Data)
    (fs : Fields) (vs : Values) (ctx : Ctx) : UOutcome × Values × Ctx :=
  match fs, vs with
  | .nil, vs => (.ok, vs, ctx)
  | .cons _ _ _ _, .nil => (.ok, .nil, ctx)
  | .cons fname ftag fty rest, .cons fv vrest =>
    match unmarshalField m source data fname ftag fty fv ctx with
    | .skip ctx' =>
      let t := unmarshalFields m source data rest vrest ctx'
      (t.1, .cons fv t.2.1, t.2.2)
    | .assigned fv' ctx' =>
      let t := unmarshalFields m source data rest vrest ctx'
      (t.1, .cons fv' t.2.1, t.2.2)
    | .halt o fv' ctx' => (o, .cons fv' vrest, ctx')
termination_by 3 * sizeOf fs
decreasing_by
  all_goals simp_arith

/-- One iteration of the field loop up to the decoder-name resolution:
sets `ctx.field`, `ctx.tag` and `ctx.typ` (the decoder-tag entry, with
fallback to `DefaultType`), skipping the field when both are empty. -/
def unmarshalField (m : Marshal) (source : Src) (data : Data)
    (fname : String) (ftag : Tag) (fty : Ty) (fv : Value) (ctx : Ctx) :
    StepResult :=
  let ctx := { ctx with field := fname, tag := ftag,
                        typ := tagGet ftag m.TypeTag }
  if ctx.typ = "" then
    if m.DefaultType = "" then .skip ctx
    else unmarshalFieldTyped m source data fname ftag fty fv
      { ctx with typ := m.DefaultType }
  else unmarshalFieldTyped m source data fname ftag fty fv ctx
termination_by 3 * sizeOf fty + 2
decreasing_by
  all_goals simp_arith

/-- The rest of one iteration of the field loop, with the decoder name
already resolved into `ctx.typ`: the inline check, the source-key
resolution, the registry lookup, the decoder dispatch and the
reconciliation.  A recursive inline call acquires its own pooled
context (modelled by a fresh context initialised with `data`); its
reset-and-return to the pool is not observable and is dropped. -/
def unmarshalFieldTyped (m : Marshal) (source : Src) (data : Data)
    (fname : String) (ftag : Tag) (fty : Ty) (fv : Value) (ctx : Ctx) :
    StepResult :=
  if m.InlineType ≠ "" ∧ ctx.typ = m.InlineType then
    match fty, fv with
    | .structT nfs, .vStruct nvs =>
      let t := unmarshalFields m source data nfs nvs
        { emptyCtx with data := data }
      match t.1 with
      | .ok => .assigned (.vStruct t.2.1) ctx
      | o => .halt o (.vStruct t.2.1) ctx
    | .ptr (.structT nfs), fv =>
      -- when the pointer is nil, allocate a new zero value first
      -- (fValue.Set(reflect.New(fType))), then recurse into the pointee
      let nvs := match fv with
        | .vPtr (.vStruct ws) => ws
        | _ => zeroFields nfs
      let t := unmarshalFields m source data nfs nvs
        { emptyCtx with data := data }
      match t.1 with
      | .ok => .assigned (.vPtr (.vStruct t.2.1)) ctx
      | o => .halt o (.vPtr (.vStruct t.2.1)) ctx
    | .ptr _, fv =>
      .halt (.err (.errInlineNotStruct fname ftag ctx.typ)) fv ctx
    | _, fv =>
      .halt (.err (.errInlineNotStruct fname ftag ctx.typ)) fv ctx
  else
    let ctx := { ctx with datum := tagGet ftag m.NameTag }
    if ctx.datum = "" ∧ m.StrictNameTag then .skip ctx
    else
      let ctx := if ctx.datum = "" then { ctx with datum := fname } else ctx
      match m.getUnmarshaler ctx.typ with
      | .error e =>
        .halt (.err (.errUnknownType ctx.field ctx.tag ctx.datum ctx.typ e))
          fv ctx
      | .ok fns =>
        match fns.1 with
        | some f =>
          let r := source.Lookup ctx.datum
          let ctx := { ctx with kind := .singleUnmarshaler }
          let p := f r.1 r.2 ctx
          afterParse m ctx fty fv p.1 p.2
        | none =>
          match fns.2 with
          | some g =>
            let r := source.LookupAll ctx.datum
            let ctx := { ctx with kind := .multiUnmarshaler }
            let p := g r.1 r.2 ctx
            afterParse m ctx fty fv p.1 p.2
          | none =>
            -- neither switch case runs (unreachable after getUnmarshaler):
            -- pValue and pErr remain nil
            afterParse m ctx fty fv none none
termination_by 3 * sizeOf fty + 1
decreasing_by
  all_goals simp_arith
end

/-- The body of `Marshal.unmarshal` once the destination has been
checked to be a pointer to a struct: acquire a context, store `data` in
it, run the field loop, and reset the context before it is returned to
the pool.  `ctx0` is the (arbitrary) context handed out by the pool. -/
def Marshal.unmarshalOn (m : Marshal) (source : Src) (data : Data)
    (fs : Fields) (vs : Values) (ctx0 : Ctx) : UOutcome × Values × Ctx :=
  let t := unmarshalFields m source data fs vs { ctx0 with data := data }
  (t.1, t.2.1, t.2.2.Reset)

/-- The `value interface{}` argument of `Marshal.unmarshal`: `nil` or a
typed value. -/
inductive Dest where
  | nil
  | val (ty : Ty) (v : Value)
deriving DecidableEq

/-- `Marshal.unmarshal` (and `Marshal.Unmarshal`): the destination
checks, then the field loop.  The precondition failures happen before a
context is taken from the pool, so `ctx0` is untouched on those paths.
Passing a non-nil interface holding a nil pointer makes the Go code call
`reflect.Value.Field` on an invalid value, which panics. -/
def Marshal.unmarshal (m : Marshal) (dest : Dest) (source : Src)
    (data : Data) (ctx0 : Ctx) : UOutcome × Dest × Ctx :=
  match dest with
  | .nil => (.err .errDestIsNil, dest, ctx0)
  | .val dty dv =>
    match dty, dv with
    | .ptr (.structT fs), .vPtr (.vStruct vs) =>
      let t := m.unmarshalOn source data fs vs ctx0
      (t.1, .val dty (.vPtr (.vStruct t.2.1)), t.2.2)
    | .ptr (.structT _), _ =>
      (.panicked "reflect: call of reflect.Value.Field on zero Value",
        dest, ctx0)
    | .ptr _, _ => (.err .errNotPointerToStruct, dest, ctx0)
    | _, _ => (.err .errNotPointerToStruct, dest, ctx0)

/-! Spec-side definitions and helper predicates used by the theorems. -/

/-- The decoder-name resolution rule as the specification words it:
"read the decoder-tag metadata entry for the field.  If absent: if
`defaultDecoderName` is empty, skip the field entirely; else use
`defaultDecoderName`."  `none` means the field is skipped. -/
def specResolveDecoderName (m : Marshal) (ftag : Tag) : Option String :=
  let t := tagGet ftag m.TypeTag
  if t = "" then (if m.DefaultType = "" then none else some m.DefaultType)
  else some t

/-- All fields of a struct lack a decoder-tag entry for tag key `tt`. -/
def noTypeTags (tt : String) : Fields → Bool
  | .nil => true
  | .cons _ tag _ rest => (tagGet tag tt == "") && noTypeTags tt rest

/-- The value list has exactly one value per declared field. -/
def matchesLen : Fields → Values → Bool
  | .nil, .nil => true
  | .cons _ _ _ fr, .cons _ vr => matchesLen fr vr
  | _, _ => false

/-- A configuration whose default decoder substitutes "no value" for
every field: the single decoder named `"nil"` always returns the nil
interface with no error (the `nilstringslice` example from the repo's
tests, installed as the default decoder). -/
def nilMarshal : Marshal :=
  ⟨"name", false, "type", "nil", "",
   [("nil", some (fun _ _ _ => (none, none)))], [], false⟩

/-- Helper: writing a key and reading it back in a Go map. -/
theorem goMapLookup_set_self {α : Type} (l : List (String × Option α))
    (k : String) (v : Option α) : goMapLookup (goMapSet l k v) k = (v, true) := by
  induction l with
  | nil => simp [goMapSet, goMapLookup]
  | cons p rest ih =>
    by_cases h : p.1 = k
    · simp [goMapSet, goMapLookup, h]
    · simp only [goMapSet]
      rw [if_neg (by simpa using h)]
      simp only [goMapLookup, List.find?] at ih ⊢
      rw [show (p.1 == k) = false by simpa using h]
      exact ih

/-- A configuration with no tags configured and no decoders: every field
is skipped (used to exhibit the context-reset residue). -/
def bareMarshal : Marshal := ⟨"", false, "", "", "", [], [], false⟩

/-- A configuration whose default decoder name *is* the inline marker,
with no registered decoders. -/
def inlineDefaultMarshal : Marshal :=
  ⟨"name", false, "type", "inline", "inline", [], [], false⟩

/-! ## Claim theorems -/

/-- C1: for every field, the decoder name is resolved exactly once — the
decoder-tag entry if present, else `DefaultType` — and when both are
empty the field is skipped; the inline check is applied to that single
resolved value, so an untagged field is inlined whenever `DefaultType`
equals the non-empty `InlineType`.  Conjuncts: (1) the per-field step
factors through `specResolveDecoderName`, skipping exactly when it
returns `none` and otherwise continuing with `ctx.typ` set to the
resolved name; (2) a `skip` step leaves the field's value unchanged and
produces no error; (3) an untagged struct field is recursively decoded
when `DefaultType = InlineType ≠ ""`. -/
theorem c1_decoder_name_resolved_once (m : Marshal) (s : Src) (d : Data)
    (n : String) (ftag : Tag) (ty : Ty) (v : Value) (ctx : Ctx) :
    (unmarshalField m s d n ftag ty v ctx =
      match specResolveDecoderName m ftag with
      | none => .skip { ctx with field := n, tag := ftag, typ := "" }
      | some t => unmarshalFieldTyped m s d n ftag ty v
          { ctx with field := n, tag := ftag, typ := t }) ∧
    (∀ rest vrest ctx'',
      unmarshalField m s d n ftag ty v ctx = .skip ctx'' →
      unmarshalFields m s d (.cons n ftag ty rest) (.cons v vrest) ctx =
        (let t := unmarshalFields m s d rest vrest ctx''
         (t.1, .cons v t.2.1, t.2.2))) ∧
    (∀ nfs nvs, tagGet ftag m.TypeTag = "" → m.DefaultType = m.InlineType →
      m.InlineType ≠ "" →
      unmarshalField m s d n ftag (.structT nfs) (.vStruct nvs) ctx =
        (let t := unmarshalFields m s d nfs nvs { emptyCtx with data := d }
         let ctx' := { ctx with field := n, tag := ftag, typ := m.InlineType }
         match t.1 with
         | .ok => .assigned (.vStruct t.2.1) ctx'
         | o => .halt o (.vStruct t.2.1) ctx')) := by
  refine ⟨?_, ?_, ?_⟩
  · rw [unmarshalField]
    unfold specResolveDecoderName
    by_cases h1 : tagGet ftag m.TypeTag = "" <;>
      by_cases h2 : m.DefaultType = "" <;> simp [h1, h2]
  · intro rest vrest ctx'' h
    rw [unmarshalFields, h]
  · intro nfs nvs h1 h2 h3
    rw [unmarshalField]
    simp only [h1, if_pos rfl, if_neg (h2 ▸ h3)]
    rw [unmarshalFieldTyped]
    simp [h2, h3]

/-- Witness for C1 at a concrete input: an untagged struct field under a
configuration whose default decoder name is the inline marker is
recursively decoded. -/
theorem c1_witness :
    tagGet ([] : Tag) inlineDefaultMarshal.TypeTag = "" ∧
    inlineDefaultMarshal.DefaultType = inlineDefaultMarshal.InlineType ∧
    inlineDefaultMarshal.InlineType ≠ "" ∧
    unmarshalField inlineDefaultMarshal emptySrc Data.empty "F" []
        (.structT .nil) (.vStruct .nil) emptyCtx =
      (let t := unmarshalFields inlineDefaultMarshal emptySrc Data.empty
         .nil .nil { emptyCtx with data := Data.empty }
       let ctx' := { emptyCtx with
                     field := "F", tag := ([] : Tag),
                     typ := inlineDefaultMarshal.InlineType }
       match t.1 with
       | .ok => .assigned (.vStruct t.2.1) ctx'
       | o => .halt o (.vStruct t.2.1) ctx') :=
  ⟨rfl, rfl, by decide,
    (c1_decoder_name_resolved_once inlineDefaultMarshal emptySrc Data.empty
      "F" [] (.structT .nil) (.vStruct .nil) emptyCtx).2.2 .nil .nil rfl rfl
      (by decide)⟩

/-- C8 (amended): at completion of every decode call, before the pooled
context is returned for reuse, the positional fields `field`, `datum`,
`typ` and `kind` and the data store are reset to their empty/default
values.  (The tag set is *not* reset — see the counterexample.) -/
theorem c8_context_reset_on_completion (m : Marshal) (s : Src) (d : Data)
    (fs : Fields) (vs : Values) (ctx0 : Ctx) :
    ((m.unmarshalOn s d fs vs ctx0).2.2).field = "" ∧
    ((m.unmarshalOn s d fs vs ctx0).2.2).datum = "" ∧
    ((m.unmarshalOn s d fs vs ctx0).2.2).typ = "" ∧
    ((m.unmarshalOn s d fs vs ctx0).2.2).kind = .undef ∧
    ((m.unmarshalOn s d fs vs ctx0).2.2).data = Data.empty := by
  simp [Marshal.unmarshalOn, Ctx.Reset]

/-- C8 counterexample: the tag set is not reset at completion — after
decoding a struct whose (skipped) field carries the tag `k:"v"`, the
context handed back to the pool still holds that tag set, so the claim
that *all* positional fields including the tag set are reset fails. -/
theorem c8_counterexample :
    ((bareMarshal.unmarshalOn emptySrc Data.empty
        (.cons "F" [("k", "v")] .str .nil)
        (.cons (.vStr "a") .nil) emptyCtx).2.2).tag = [("k", "v")] ∧
    ([("k", "v")] : Tag) ≠ ([] : Tag) := by
  constructor
  · simp [Marshal.unmarshalOn, unmarshalFields, unmarshalField, bareMarshal,
      tagGet, Ctx.Reset, emptyCtx]
  · decide

/-- C10: a decoder name registered with a nil function counts as not
registered: nil in one collection with a non-nil function in the other
resolves to the non-nil function without an Ambiguous error (both
directions), and a name mapped only to nil functions fails with the
Unknown registry error. -/
theorem c10_nil_registration_ignored (m : Marshal) (name : String)
    (f : SingleUnmarshaler) (g : MultiUnmarshaler) :
    ((m.RegisterSingleUnmarshaler name none).RegisterMultiUnmarshaler name
        (some g)).getUnmarshaler name = .ok (none, some g) ∧
    ((m.RegisterMultiUnmarshaler name none).RegisterSingleUnmarshaler name
        (some f)).getUnmarshaler name = .ok (some f, none) ∧
    ((m.RegisterSingleUnmarshaler name none).RegisterMultiUnmarshaler name
        none).getUnmarshaler name = .error .errUnknownTyp := by
  refine ⟨?_, ?_, ?_⟩ <;>
    simp [Marshal.RegisterSingleUnmarshaler, Marshal.RegisterMultiUnmarshaler,
      Marshal.getUnmarshaler, goMapLookup_set_self]

/-- C2: a decoder error is wrapped as `ErrFailedToProcessField` with the
full positional context (field, tag set, source key, decoder name,
kind) plus the cause; the loop stops at once, the failing field and all
later fields keep their prior values, and fields decoded before the
failure keep their newly assigned values (no rollback).  Conjuncts:
(1) the post-decoder step wraps any decoder error, leaving the field
value unchanged; (2) a halting step stops the loop with the remaining
values untouched; (3) a successfully assigned field keeps its new value
even when a later field fails. -/
theorem c2_decoder_error_hard_stop (m : Marshal) (s : Src) (d : Data)
    (n : String) (ftag : Tag) (ty : Ty) (v : Value) (rest : Fields)
    (vrest : Values) (ctx : Ctx) :
    (∀ pv e, afterParse m ctx ty v pv (some e) =
      .halt (.err (.errFailedToProcessField ctx.field ctx.tag ctx.datum
        ctx.typ ctx.kind e)) v ctx) ∧
    (∀ o fv' ctx', unmarshalField m s d n ftag ty v ctx = .halt o fv' ctx' →
      unmarshalFields m s d (.cons n ftag ty rest) (.cons v vrest) ctx =
        (o, .cons fv' vrest, ctx')) ∧
    (∀ fv' ctx', unmarshalField m s d n ftag ty v ctx = .assigned fv' ctx' →
      unmarshalFields m s d (.cons n ftag ty rest) (.cons v vrest) ctx =
        (let t := unmarshalFields m s d rest vrest ctx'
         (t.1, .cons fv' t.2.1, t.2.2))) := by
  refine ⟨fun pv e => rfl, fun o fv' ctx' h => ?_, fun fv' ctx' h => ?_⟩
  · rw [unmarshalFields, h]
  · rw [unmarshalFields, h]

/-- A configuration with an `"always"` decoder (echoing the raw string)
and a `"never"` decoder (always failing), as in the repo's tests. -/
def neverMarshal : Marshal :=
  ⟨"name", false, "type", "", "",
   [("always", some (fun v _ _ => (some (.str, .vStr v), none))),
    ("never", some (fun _ _ _ => (none, some "never unmarshaler")))],
   [], false⟩

/-- Witness for C2 at a concrete input: a field whose decoder `"never"`
fails makes the decode stop with the wrapped error, leaving the failing
field and the following field at their prior values. -/
theorem c2_witness :
    unmarshalField neverMarshal emptySrc Data.empty "B" [("type", "never")]
        .str (.vStr "b0") emptyCtx =
      .halt (.err (.errFailedToProcessField "B" [("type", "never")] "B"
        "never" .singleUnmarshaler "never unmarshaler")) (.vStr "b0")
        { emptyCtx with
          field := "B", tag := [("type", "never")],
          typ := "never", datum := "B", kind := .singleUnmarshaler } ∧
    unmarshalFields neverMarshal emptySrc Data.empty
        (.cons "B" [("type", "never")] .str
          (.cons "C" [("type", "always")] .str .nil))
        (.cons (.vStr "b0") (.cons (.vStr "c0") .nil)) emptyCtx =
      (.err (.errFailedToProcessField "B" [("type", "never")] "B" "never"
          .singleUnmarshaler "never unmarshaler"),
       .cons (.vStr "b0") (.cons (.vStr "c0") .nil),
       { emptyCtx with
         field := "B", tag := [("type", "never")],
         typ := "never", datum := "B", kind := .singleUnmarshaler }) := by
  have h : unmarshalField neverMarshal emptySrc Data.empty "B"
      [("type", "never")] .str (.vStr "b0") emptyCtx =
      .halt (.err (.errFailedToProcessField "B" [("type", "never")] "B"
        "never" .singleUnmarshaler "never unmarshaler")) (.vStr "b0")
        { emptyCtx with
          field := "B", tag := [("type", "never")],
          typ := "never", datum := "B", kind := .singleUnmarshaler } := by
    simp [unmarshalField, unmarshalFieldTyped, tagGet, neverMarshal,
      Marshal.getUnmarshaler, goMapLookup, afterParse, emptySrc, emptyCtx]
  exact ⟨h,
    (c2_decoder_error_hard_stop neverMarshal emptySrc Data.empty "B"
      [("type", "never")] .str (.vStr "b0")
      (.cons "C" [("type", "always")] .str .nil)
      (.cons (.vStr "c0") .nil) emptyCtx).2.1 _ _ _ h⟩

/-- C3: an inline-tagged field of pointer-to-struct type: a nil pointer
is replaced by a freshly allocated zero struct which is then recursively
decoded, while a non-nil pointer has its existing pointee recursively
decoded in place — the recursion starts from the existing field values,
never from a fresh zero value, so untouched nested fields keep their
pre-seeded values. -/
theorem c3_inline_pointer_to_struct (m : Marshal) (s : Src) (d : Data)
    (n : String) (ftag : Tag) (nfs : Fields) (ctx : Ctx)
    (h1 : m.InlineType ≠ "") (h2 : tagGet ftag m.TypeTag = m.InlineType) :
    (unmarshalField m s d n ftag (.ptr (.structT nfs)) .vPtrNull ctx =
      (let t := unmarshalFields m s d nfs (zeroFields nfs)
         { emptyCtx with data := d }
       let ctx' := { ctx with field := n, tag := ftag, typ := m.InlineType }
       match t.1 with
       | .ok => .assigned (.vPtr (.vStruct t.2.1)) ctx'
       | o => .halt o (.vPtr (.vStruct t.2.1)) ctx')) ∧
    (∀ ws, unmarshalField m s d n ftag (.ptr (.structT nfs))
        (.vPtr (.vStruct ws)) ctx =
      (let t := unmarshalFields m s d nfs ws { emptyCtx with data := d }
       let ctx' := { ctx with field := n, tag := ftag, typ := m.InlineType }
       match t.1 with
       | .ok => .assigned (.vPtr (.vStruct t.2.1)) ctx'
       | o => .halt o (.vPtr (.vStruct t.2.1)) ctx')) := by
  have hne : tagGet ftag m.TypeTag ≠ "" := h2 ▸ h1
  constructor
  · rw [unmarshalField]
    simp only [h2, if_neg (by simpa using h1)]
    rw [unmarshalFieldTyped] <;> simp [h1]
  · intro ws
    rw [unmarshalField]
    simp only [h2, if_neg (by simpa using h1)]
    rw [unmarshalFieldTyped] <;> simp [h1]

/-- A configuration with an inline marker and an echoing `"string"`
decoder, mirroring the repo's recursive-unmarshal example. -/
def presetMarshal : Marshal :=
  ⟨"read", false, "type", "", "inline",
   [("string", some (fun v _ _ => (some (.str, .vStr v), none)))],
   [], false⟩

/-- The nested struct of the recursive example: a decoded `Value` field
and an untouched `Preset` field. -/
def presetFields : Fields :=
  .cons "Value" [("read", "preset"), ("type", "string")] .str
    (.cons "Preset" [] .int .nil)

/-- A source holding only `preset = "preset value"`. -/
def presetSrc : Src :=
  ⟨sourceSingleMap [("preset", "preset value")], fun _ => ([], false)⟩

/-- Witness for C3 at a concrete input: a non-nil pointer field tagged
inline is decoded in place — the recursion starts from the pre-seeded
values, the pre-seeded `Preset = 3` survives, and the tagged nested
field is decoded from the source. -/
theorem c3_witness :
    tagGet [("type", "inline")] presetMarshal.TypeTag
        = presetMarshal.InlineType ∧
    presetMarshal.InlineType ≠ "" ∧
    unmarshalField presetMarshal presetSrc Data.empty "NonNilPointer"
        [("type", "inline")] (.ptr (.structT presetFields))
        (.vPtr (.vStruct (.cons (.vStr "") (.cons (.vInt 3) .nil)))) emptyCtx =
      .assigned (.vPtr (.vStruct (.cons (.vStr "preset value")
        (.cons (.vInt 3) .nil))))
        { emptyCtx with
          field := "NonNilPointer", tag := [("type", "inline")],
          typ := presetMarshal.InlineType } := by
  refine ⟨rfl, by decide, ?_⟩
  have happ := (c3_inline_pointer_to_struct presetMarshal presetSrc Data.empty
      "NonNilPointer" [("type", "inline")] presetFields emptyCtx
      (by decide) rfl).2 (.cons (.vStr "") (.cons (.vInt 3) .nil))
  rw [happ]
  simp [presetMarshal, presetFields, presetSrc, tagGet, unmarshalFields,
    unmarshalField, unmarshalFieldTyped, Marshal.getUnmarshaler, goMapLookup,
    afterParse, sourceSingleMap, dataLookup, emptyCtx, canConvert,
    reflectConvert, convertVal, assignableTo]

/-- A configuration with `StrictNameTag` set, an inline marker, and no
decoders. -/
def strictInlineMarshal : Marshal :=
  ⟨"name", true, "type", "", "inline", [], [], false⟩

/-- C4 counterexample: a field with no name-tag entry under
`StrictNameTag = true` is *not* left untouched when its decoder tag is
the inline marker — the nil pointer field is populated with a freshly
allocated struct, so "untouched regardless of the field's decoder tag"
fails. -/
theorem c4_counterexample :
    (strictInlineMarshal.unmarshalOn emptySrc Data.empty
        (.cons "P" [("type", "inline")] (.ptr (.structT .nil)) .nil)
        (.cons .vPtrNull .nil) emptyCtx).2.1 =
      .cons (.vPtr (.vStruct .nil)) .nil ∧
    (Values.cons (.vPtr (.vStruct .nil)) .nil) ≠ .cons .vPtrNull .nil := by
  constructor
  · rw [Marshal.unmarshalOn]
    simp only [unmarshalFields, unmarshalField, unmarshalFieldTyped]
    simp [strictInlineMarshal, tagGet, emptyCtx, unmarshalFields, zeroFields]
  · decide

/-- C4 (amended): a field whose name-tag entry is absent under
`StrictNameTag = true` is left untouched (no source read, no write, no
error) regardless of its decoder tag, *provided* the resolved decoder
name does not trigger the inline recursion (an inline-tagged field is
recursed into without ever consulting the name tag). -/
theorem c4_strict_name_tag_skips (m : Marshal) (s : Src) (d : Data)
    (n : String) (ftag : Tag) (ty : Ty) (v : Value) (rest : Fields)
    (vrest : Values) (ctx : Ctx)
    (hname : tagGet ftag m.NameTag = "")
    (hstrict : m.StrictNameTag = true)
    (hni : ∀ t, specResolveDecoderName m ftag = some t →
      m.InlineType = "" ∨ t ≠ m.InlineType) :
    unmarshalField m s d n ftag ty v ctx =
      (match specResolveDecoderName m ftag with
       | none => .skip { ctx with field := n, tag := ftag, typ := "" }
       | some t =>
         .skip { ctx with field := n, tag := ftag, typ := t, datum := "" }) ∧
    (∀ ctx'', unmarshalField m s d n ftag ty v ctx = .skip ctx'' →
      unmarshalFields m s d (.cons n ftag ty rest) (.cons v vrest) ctx =
        (let t := unmarshalFields m s d rest vrest ctx''
         (t.1, .cons v t.2.1, t.2.2))) := by
  have typed : ∀ ctxt : Ctx, (m.InlineType = "" ∨ ctxt.typ ≠ m.InlineType) →
      unmarshalFieldTyped m s d n ftag ty v ctxt =
        .skip { ctxt with datum := "" } := by
    intro ctxt hd
    have hinl : ¬(m.InlineType ≠ "" ∧ ctxt.typ = m.InlineType) := by
      rcases hd with hd | hd
      · exact fun hc => hc.1 hd
      · exact fun hc => hd hc.2
    rw [unmarshalFieldTyped.eq_def, if_neg hinl]
    simp [hname, hstrict]
  constructor
  · rw [unmarshalField]
    unfold specResolveDecoderName
    by_cases h1 : tagGet ftag m.TypeTag = ""
    · by_cases h2 : m.DefaultType = ""
      · simp [h1, h2]
      · have hres : specResolveDecoderName m ftag = some m.DefaultType := by
          simp [specResolveDecoderName, h1, h2]
        have hd := hni m.DefaultType hres
        have hty := typed
          { ctx with field := n, tag := ftag, typ := m.DefaultType }
          (by simpa using hd)
        simp [h1, h2, hty]
    · have hres : specResolveDecoderName m ftag
          = some (tagGet ftag m.TypeTag) := by
        simp [specResolveDecoderName, h1]
      have hd := hni (tagGet ftag m.TypeTag) hres
      have hty := typed
        { ctx with field := n, tag := ftag, typ := tagGet ftag m.TypeTag }
        (by simpa using hd)
      simp [h1, hty]
  · intro ctx'' h
    rw [unmarshalFields, h]

/-- Witness for C4's amended claim at a concrete input: a field tagged
with an unregistered, non-inline decoder name but no name tag is skipped
under `StrictNameTag = true`. -/
theorem c4_witness :
    tagGet [("type", "other")] strictInlineMarshal.NameTag = "" ∧
    strictInlineMarshal.StrictNameTag = true ∧
    unmarshalField strictInlineMarshal emptySrc Data.empty "F"
        [("type", "other")] .str (.vStr "x") emptyCtx =
      (match specResolveDecoderName strictInlineMarshal [("type", "other")] with
       | none => .skip { emptyCtx with
           field := "F", tag := [("type", "other")], typ := "" }
       | some t => .skip { emptyCtx with
           field := "F", tag := [("type", "other")], typ := t, datum := "" }) :=
  ⟨rfl, rfl,
    (c4_strict_name_tag_skips strictInlineMarshal emptySrc Data.empty "F"
      [("type", "other")] .str (.vStr "x") .nil .nil emptyCtx rfl rfl
      (by decide)).1⟩

/-- A strict-typing configuration whose only decoder returns the nil
interface with no error. -/
def strictNilMarshal : Marshal :=
  ⟨"name", false, "type", "", "",
   [("nilret", some (fun _ _ _ => (none, none)))], [], true⟩

/-- C5 counterexample: under `StrictTyping = true` a decoder returning
the nil interface does not produce a `WrongType{Assignment:true}` error —
the engine calls `reflect.Value.Type` on the zero `reflect.Value`, which
panics, so the claim's "every possible decoder return, including a nil
return" fails. -/
theorem c5_counterexample :
    (strictNilMarshal.unmarshalOn emptySrc Data.empty
        (.cons "F" [("type", "nilret")] .int .nil)
        (.cons (.vInt 5) .nil) emptyCtx).1 =
      .panicked "reflect: call of reflect.Value.Type on zero Value" ∧
    ¬ ∃ e, (strictNilMarshal.unmarshalOn emptySrc Data.empty
        (.cons "F" [("type", "nilret")] .int .nil)
        (.cons (.vInt 5) .nil) emptyCtx).1 = .err e := by
  have h : (strictNilMarshal.unmarshalOn emptySrc Data.empty
      (.cons "F" [("type", "nilret")] .int .nil)
      (.cons (.vInt 5) .nil) emptyCtx).1 =
      .panicked "reflect: call of reflect.Value.Type on zero Value" := by
    rw [Marshal.unmarshalOn]
    simp only [unmarshalFields, unmarshalField, unmarshalFieldTyped]
    simp [strictNilMarshal, tagGet, emptyCtx, Marshal.getUnmarshaler,
      goMapLookup, afterParse, emptySrc, unmarshalFields]
  exact ⟨h, fun ⟨e, he⟩ => by rw [h] at he; exact UOutcome.noConfusion he⟩

/-- C5 (amended): under `StrictTyping = true`, every *non-nil* value a
decoder returns must be directly assignable to the field's declared
type: a non-assignable value fails with `WrongType{Assignment:true}`, an
assignable value is assigned with no conversion attempted, and a nil
return causes a reflection panic instead of a `WrongType` error. -/
theorem c5_strict_typing_assignability (m : Marshal) (ctx : Ctx) (fty : Ty)
    (fv : Value) (hstrict : m.StrictTyping = true) :
    (∀ rty rv, assignableTo rty fty = false →
      afterParse m ctx fty fv (some (rty, rv)) none =
        .halt (.err (.errWrongDestType ctx.field ctx.tag ctx.datum ctx.typ
          ctx.kind true rty fty none)) fv ctx) ∧
    (∀ rty rv, assignableTo rty fty = true →
      afterParse m ctx fty fv (some (rty, rv)) none = .assigned rv ctx) ∧
    afterParse m ctx fty fv none none =
      .halt (.panicked "reflect: call of reflect.Value.Type on zero Value")
        fv ctx := by
  refine ⟨fun rty rv h => ?_, fun rty rv h => ?_, ?_⟩ <;>
    simp [afterParse, hstrict, *]

/-- A strict-typing configuration whose decoder `"s"` echoes the raw
string (so it returns a string for any field type). -/
def strictStrMarshal : Marshal :=
  ⟨"name", false, "type", "", "",
   [("s", some (fun v _ _ => (some (.str, .vStr v), none)))], [], true⟩

/-- Witness for C5's amended claim at a concrete input: a decoder
returning a string for an integer field under strict typing yields
`WrongType{Assignment:true}`, both at the reconciliation step and for
the whole decode. -/
theorem c5_witness :
    assignableTo .str .int = false ∧
    strictStrMarshal.StrictTyping = true ∧
    afterParse strictStrMarshal
        { emptyCtx with
          field := "F", tag := [("type", "s")], typ := "s",
          datum := "F", kind := .singleUnmarshaler } .int (.vInt 5)
        (some (.str, .vStr "")) none =
      .halt (.err (.errWrongDestType "F" [("type", "s")] "F" "s"
        .singleUnmarshaler true .str .int none)) (.vInt 5)
        { emptyCtx with
          field := "F", tag := [("type", "s")], typ := "s",
          datum := "F", kind := .singleUnmarshaler } ∧
    (strictStrMarshal.unmarshalOn emptySrc Data.empty
        (.cons "F" [("type", "s")] .int .nil)
        (.cons (.vInt 5) .nil) emptyCtx).1 =
      .err (.errWrongDestType "F" [("type", "s")] "F" "s"
        .singleUnmarshaler true .str .int none) := by
  refine ⟨rfl, rfl,
    (c5_strict_typing_assignability strictStrMarshal
      { emptyCtx with
        field := "F", tag := [("type", "s")], typ := "s",
        datum := "F", kind := .singleUnmarshaler } .int (.vInt 5) rfl).1
      .str (.vStr "") rfl, ?_⟩
  rw [Marshal.unmarshalOn]
  simp only [unmarshalFields, unmarshalField, unmarshalFieldTyped]
  simp [strictStrMarshal, tagGet, emptyCtx, Marshal.getUnmarshaler,
    goMapLookup, afterParse, emptySrc, assignableTo, unmarshalFields]

/-- Helper for C6: one field step of `nilMarshal` on a field with no
decoder-tag entry assigns the zero value of the declared type. -/
theorem nilMarshal_step (n : String) (tag : Tag) (ty : Ty) (v : Value)
    (ctx : Ctx) (htag : tagGet tag "type" = "") :
    ∃ ctx', unmarshalField nilMarshal emptySrc Data.empty n tag ty v ctx =
      .assigned (zeroValue ty) ctx' := by
  rw [unmarshalField]
  simp only [unmarshalFieldTyped.eq_def]
  by_cases hd : tagGet tag "name" = "" <;>
    simp [nilMarshal, htag, hd, Marshal.getUnmarshaler, goMapLookup,
      afterParse, emptySrc]

/-- Helper for C6: the field loop of `nilMarshal` over a record with no
decoder-tag entries succeeds and zeroes every field. -/
theorem nilMarshal_loop_zero :
    ∀ (fs : Fields) (vs : Values) (ctx : Ctx),
    noTypeTags nilMarshal.TypeTag fs = true →
    matchesLen fs vs = true →
    (unmarshalFields nilMarshal emptySrc Data.empty fs vs ctx).1 = .ok ∧
    (unmarshalFields nilMarshal emptySrc Data.empty fs vs ctx).2.1 =
      zeroFields fs
  | .nil, .nil, ctx, _, _ => by simp [unmarshalFields, zeroFields]
  | .nil, .cons v vr, ctx, _, h2 => by simp [matchesLen] at h2
  | .cons n tag ty rest, .nil, ctx, _, h2 => by simp [matchesLen] at h2
  | .cons n tag ty rest, .cons v vr, ctx, h1, h2 => by
    simp only [noTypeTags, Bool.and_eq_true, beq_iff_eq] at h1
    obtain ⟨ctx', hstep⟩ := nilMarshal_step n tag ty v ctx h1.1
    have ih := nilMarshal_loop_zero rest vr ctx' h1.2
      (by simpa [matchesLen] using h2)
    rw [unmarshalFields, hstep]
    exact ⟨ih.1, by simp [zeroFields, ih.2]⟩
termination_by fs _ _ _ _ => sizeOf fs
decreasing_by
  all_goals simp_arith

/-- C6: with `StrictTyping = false`, a decoder returning the nil
interface with no error makes the engine assign the zero value of the
field's declared type and continue; consequently decoding an empty
source into a record all of whose fields use the default
nil-returning decoder yields the zero value in every field. -/
theorem c6_nil_return_substitutes_zero :
    (∀ (m : Marshal) (ctx : Ctx) (fty : Ty) (fv : Value),
      m.StrictTyping = false →
      afterParse m ctx fty fv none none = .assigned (zeroValue fty) ctx) ∧
    (∀ (fs : Fields) (vs : Values) (ctx0 : Ctx),
      noTypeTags nilMarshal.TypeTag fs = true → matchesLen fs vs = true →
      (nilMarshal.unmarshalOn emptySrc Data.empty fs vs ctx0).1 = .ok ∧
      (nilMarshal.unmarshalOn emptySrc Data.empty fs vs ctx0).2.1 =
        zeroFields fs) := by
  constructor
  · intro m ctx fty fv h
    simp [afterParse, h]
  · intro fs vs ctx0 h1 h2
    have := nilMarshal_loop_zero fs vs { ctx0 with data := Data.empty } h1 h2
    rw [Marshal.unmarshalOn]
    exact this

/-- Witness for C6 at a concrete input: a two-field record with no
decoder tags decoded from the empty source comes out all zeroes. -/
theorem c6_witness :
    noTypeTags nilMarshal.TypeTag
        (.cons "A" [] .sliceStr (.cons "B" [("name", "b")] .int .nil)) = true ∧
    matchesLen (.cons "A" [] .sliceStr (.cons "B" [("name", "b")] .int .nil))
        (.cons (.vSliceStr ["x"]) (.cons (.vInt 9) .nil)) = true ∧
    ((nilMarshal.unmarshalOn emptySrc Data.empty
        (.cons "A" [] .sliceStr (.cons "B" [("name", "b")] .int .nil))
        (.cons (.vSliceStr ["x"]) (.cons (.vInt 9) .nil)) emptyCtx).1 = .ok ∧
     (nilMarshal.unmarshalOn emptySrc Data.empty
        (.cons "A" [] .sliceStr (.cons "B" [("name", "b")] .int .nil))
        (.cons (.vSliceStr ["x"]) (.cons (.vInt 9) .nil)) emptyCtx).2.1 =
        zeroFields (.cons "A" [] .sliceStr
          (.cons "B" [("name", "b")] .int .nil))) ∧
    zeroFields (.cons "A" [] .sliceStr (.cons "B" [("name", "b")] .int .nil))
      = .cons (.vSliceStr []) (.cons (.vInt 0) .nil) :=
  ⟨rfl, rfl,
    c6_nil_return_substitutes_zero.2
      (.cons "A" [] .sliceStr (.cons "B" [("name", "b")] .int .nil))
      (.cons (.vSliceStr ["x"]) (.cons (.vInt 9) .nil)) emptyCtx rfl rfl,
    rfl⟩

/-- C7: a name registered (with a function) in both registries resolves
to the Ambiguous error `ErrBothTyp`; a name registered in neither
resolves to `ErrUnknownTyp`; and a field using a name whose resolution
fails halts the decode with `ErrUnknownType` wrapping the registry cause
and carrying the positional context. -/
theorem c7_registry_ambiguous_unknown (m : Marshal) (name : String)
    (s : Src) (d : Data) (n : String) (ftag : Tag) (ty : Ty) (v : Value)
    (ctx : Ctx) :
    (∀ (f : SingleUnmarshaler) (g : MultiUnmarshaler),
      goMapLookup m.SingleUnmarshalers name = (some f, true) →
      goMapLookup m.MultiUnmarshalers name = (some g, true) →
      m.getUnmarshaler name = .error .errBothTyp) ∧
    (goMapLookup m.SingleUnmarshalers name = (none, false) →
     goMapLookup m.MultiUnmarshalers name = (none, false) →
     m.getUnmarshaler name = .error .errUnknownTyp) ∧
    (∀ e, (m.InlineType = "" ∨ ctx.typ ≠ m.InlineType) →
      ¬(tagGet ftag m.NameTag = "" ∧ m.StrictNameTag) →
      m.getUnmarshaler ctx.typ = .error e →
      unmarshalFieldTyped m s d n ftag ty v ctx =
        (let dat := if tagGet ftag m.NameTag = "" then n
                    else tagGet ftag m.NameTag
         .halt (.err (.errUnknownType ctx.field ctx.tag dat ctx.typ e)) v
           { ctx with datum := dat })) := by
  refine ⟨fun f g hf hg => ?_, fun hf hg => ?_, fun e hinl hdat hreg => ?_⟩
  · simp [Marshal.getUnmarshaler, hf, hg]
  · simp [Marshal.getUnmarshaler, hf, hg]
  · have hinl' : ¬(m.InlineType ≠ "" ∧ ctx.typ = m.InlineType) := by
      rcases hinl with h | h
      · exact fun hc => hc.1 h
      · exact fun hc => h hc.2
    rw [unmarshalFieldTyped.eq_def, if_neg hinl']
    by_cases hd : tagGet ftag m.NameTag = ""
    · have hs : ¬ m.StrictNameTag = true := fun hs => hdat ⟨hd, hs⟩
      simp [hd, hs, hreg]
    · simp [hd, hreg]

/-- A configuration registering the name `"dup"` with a function in both
the single and the multi registry. -/
def dupMarshal : Marshal :=
  ⟨"name", false, "type", "", "",
   [("dup", some (fun v _ _ => (some (.str, .vStr v), none)))],
   [("dup", some (fun v _ _ => (some (.sliceStr, .vSliceStr v), none)))],
   false⟩

/-- Witness for C7 at a concrete input: `"dup"` resolves to the
Ambiguous registry error, and a field tagged `"dup"` makes the decode
fail with `ErrUnknownType` wrapping it. -/
theorem c7_witness :
    dupMarshal.getUnmarshaler "dup" = .error .errBothTyp ∧
    unmarshalFieldTyped dupMarshal emptySrc Data.empty "F"
        [("type", "dup")] .str (.vStr "x")
        { emptyCtx with
          field := "F", tag := [("type", "dup")], typ := "dup" } =
      (let dat := if tagGet [("type", "dup")] dupMarshal.NameTag = "" then "F"
                  else tagGet [("type", "dup")] dupMarshal.NameTag
       .halt (.err (.errUnknownType "F" [("type", "dup")] dat "dup"
           .errBothTyp)) (.vStr "x")
         { emptyCtx with
           field := "F", tag := [("type", "dup")], typ := "dup",
           datum := dat }) := by
  have h1 : dupMarshal.getUnmarshaler "dup" = .error .errBothTyp :=
    (c7_registry_ambiguous_unknown dupMarshal "dup" emptySrc Data.empty "F"
      [("type", "dup")] .str (.vStr "x") emptyCtx).1 _ _ rfl rfl
  have happ := (c7_registry_ambiguous_unknown dupMarshal "dup" emptySrc
    Data.empty "F" [("type", "dup")] .str (.vStr "x")
    { emptyCtx with
      field := "F", tag := [("type", "dup")], typ := "dup" }).2.2
  have hdat : ¬(tagGet [("type", "dup")] dupMarshal.NameTag = "" ∧
      dupMarshal.StrictNameTag = true) := by
    simp [tagGet, dupMarshal]
  have h2 := happ .errBothTyp (Or.inl rfl) hdat h1
  refine ⟨h1, ?_⟩
  simpa using h2

/-- C9 counterexample: a `SourceSmartSplit` with only the single-value
component reports `ok = true` from `LookupAll` even when the single
value does not exist — the claim's "reports the key as absent
(ok=false)" fails (this matches the repo's own
`ExampleSourceSmartSplit_single`, which prints `value=[] ok=true`). -/
theorem c9_counterexample :
    SourceSmartSplit.LookupAll
        ⟨some (fun _ => ("", false)), none⟩ "fake" = ([], true) ∧
    ¬ (SourceSmartSplit.LookupAll
        ⟨some (fun _ => ("", false)), none⟩ "fake").2 = false := by
  constructor
  · simp [SourceSmartSplit.LookupAll]
  · simp [SourceSmartSplit.LookupAll]

/-- C9 (amended): a `SourceSmartSplit` with one capability synthesizes
the other: with only a multi component, the single lookup returns the
first element of the list when it exists and is non-empty, and reports
absent otherwise; with only a single component, the multi lookup wraps
an existing value in a singleton list with `ok = true`, and returns the
empty list *with `ok = true`* when the single value does not exist. -/
theorem c9_smartsplit_synthesis (f : String → String × Bool)
    (g : String → List String × Bool) (k : String) :
    (∀ x xs, (g k).2 = true → (g k).1 = x :: xs →
      SourceSmartSplit.Lookup ⟨none, some g⟩ k = (x, true)) ∧
    ((g k).2 = false ∨ (g k).1 = [] →
      SourceSmartSplit.Lookup ⟨none, some g⟩ k = ("", false)) ∧
    ((f k).2 = true →
      SourceSmartSplit.LookupAll ⟨some f, none⟩ k = ([(f k).1], true)) ∧
    ((f k).2 = false →
      SourceSmartSplit.LookupAll ⟨some f, none⟩ k = ([], true)) := by
  refine ⟨fun x xs h2 h1 => ?_, fun h => ?_, fun h => ?_, fun h => ?_⟩
  · simp [SourceSmartSplit.Lookup, h1, h2]
  · rcases h with h | h <;> simp [SourceSmartSplit.Lookup, h]
  · simp [SourceSmartSplit.LookupAll, h]
  · simp [SourceSmartSplit.LookupAll, h]

/-- Witness for C9's amended claim at concrete inputs: a multi-only
source serves the first element as the single value, and a single-only
source serves a singleton list (with `ok = true` both for a present and
an absent key). -/
theorem c9_witness :
    (sourceMultiMap [("key", ["another", "value"])] "key").2 = true ∧
    (sourceMultiMap [("key", ["another", "value"])] "key").1 =
      "another" :: ["value"] ∧
    SourceSmartSplit.Lookup
        ⟨none, some (sourceMultiMap [("key", ["another", "value"])])⟩ "key" =
      ("another", true) ∧
    (sourceSingleMap [("key", "value")] "key").2 = true ∧
    SourceSmartSplit.LookupAll
        ⟨some (sourceSingleMap [("key", "value")]), none⟩ "key" =
      (["value"], true) ∧
    (sourceSingleMap [("key", "value")] "fake").2 = false ∧
    SourceSmartSplit.LookupAll
        ⟨some (sourceSingleMap [("key", "value")]), none⟩ "fake" =
      ([], true) := by
  refine ⟨rfl, rfl, ?_, rfl, ?_, rfl, ?_⟩
  · exact (c9_smartsplit_synthesis (sourceSingleMap [("key", "value")])
      (sourceMultiMap [("key", ["another", "value"])]) "key").1
      "another" ["value"] rfl rfl
  · have := (c9_smartsplit_synthesis (sourceSingleMap [("key", "value")])
      (sourceMultiMap [("key", ["another", "value"])]) "key").2.2.1 rfl
    simpa [sourceSingleMap, dataLookup] using this
  · exact (c9_smartsplit_synthesis (sourceSingleMap [("key", "value")])
      (sourceMultiMap [("key", ["another", "value"])]) "fake").2.2.2 rfl

end Stringreader
